import Mathlib

/-!
Verification development for the HTTP-to-TCP adapter (src/adapter.js).

The two components under study are:
* `TCPConnectionPool` (a keyed registry of live sockets), embedded below as
  `Pool` with the operations `getConnection`, `poolOnClose`, `poolOnError`,
  and the split `acquireBegin` / `acquireFinish` exposing the interleaving
  of the registry check and the connect callback;
* `sendTCPCommand` (the command executor), embedded as an event-driven state
  machine: the state `St` holds exactly the mutable locals of one invocation
  (`responseData`, the attached listeners, the armed timers, the socket
  status), and `step` processes one event of the cooperative event loop
  (connect completion, data chunk, socket error, timer expiry, close
  delivery) exactly as the corresponding JS callback does.

JavaScript string semantics used by the code are reproduced faithfully:
`jsTrim` is `String.prototype.trim` (whitespace only at both ends),
`strHas` is `String.prototype.includes`, and the option defaulting
`options.delimiter || '\n'` / `options.timeout || 5000` treats the empty
string and 0 as falsy (`effDelim`, `effTimeout`).
-/

/-- Whitespace predicate matching the characters `String.prototype.trim`
removes for the ASCII range used by this development. -/
def isWs (c : Char) : Bool :=
  c = ' ' || c = '\t' || c = '\n' || c = '\r' || c = '\x0b' || c = '\x0c'

/-- Drop leading whitespace characters from a character list. -/
def dropWs : List Char → List Char
  | [] => []
  | c :: cs => if isWs c then dropWs cs else c :: cs

/-- JS `String.prototype.trim`: remove leading and trailing whitespace. -/
def jsTrim (s : String) : String :=
  String.mk ((dropWs ((dropWs s.data).reverse)).reverse)

/-- Whether the first list is an initial segment of the second. -/
def strStarts : List Char → List Char → Bool
  | [], _ => true
  | _ :: _, [] => false
  | a :: as, b :: bs => a = b && strStarts as bs

/-- Whether `needle` occurs somewhere in `hay` (character lists). -/
def strHasAux (needle : List Char) : List Char → Bool
  | [] => strStarts needle []
  | c :: rest => strStarts needle (c :: rest) || strHasAux needle rest

/-- JS `String.prototype.includes`. -/
def strHas (needle hay : String) : Bool :=
  strHasAux needle.data hay.data

/-- The options record of one `sendTCPCommand` invocation: the payload and
the optional `timeout` / `delimiter` entries of the `options` object. -/
structure Config where
  command : String
  timeoutOpt : Option Nat
  delimOpt : Option String
deriving Repr, DecidableEq

/-- `options.timeout || this.timeout` with the constructor default 5000:
absent or `0` (falsy) selects the default. -/
def effTimeout (cfg : Config) : Nat :=
  match cfg.timeoutOpt with
  | none => 5000
  | some t => if t = 0 then 5000 else t

/-- `options.delimiter || '\n'` (adapter.js line 161): an absent *or empty*
delimiter is falsy in JS, so both select the default newline. -/
def effDelim (cfg : Config) : String :=
  match cfg.delimOpt with
  | none => "\n"
  | some d => if d = "" then "\n" else d

/-- The delay of the no-delimiter grace timer, `Math.min(timeout, 1000)`
(adapter.js line 224). -/
def graceDelay (cfg : Config) : Nat :=
  min (effTimeout cfg) 1000

/-- The settlement of the promise returned by `sendTCPCommand`. -/
inductive Outcome where
  /-- `resolve` with a response string. -/
  | success (response : String)
  /-- `reject` from the outer timeout handler (adapter.js line 177). -/
  | timeout (afterMs : Nat)
  /-- `reject` from the socket error listener (adapter.js line 204). -/
  | transportError (msg : String)
  /-- `reject` from the catch block when `getConnection` fails. -/
  | connectError (msg : String)
deriving Repr, DecidableEq

/-- Whether the `await this.tcpPool.getConnection(...)` has completed. -/
inductive Phase where
  | connecting
  | active
deriving Repr, DecidableEq

/-- The events the event loop can deliver to one `sendTCPCommand`
invocation. -/
inductive Ev where
  /-- `getConnection` resolves: listeners are attached and the command is
  written (adapter.js lines 182-225), regardless of any prior rejection. -/
  | connectOk
  /-- `getConnection` rejects: the catch block runs (lines 227-231). -/
  | connectErr (msg : String)
  /-- A data chunk is emitted by the socket. -/
  | data (chunk : String)
  /-- An error is emitted by the socket. -/
  | socketError (msg : String)
  /-- The outer timeout timer fires (lines 172-178). -/
  | timerFire
  /-- The no-delimiter grace timer fires (lines 218-224). -/
  | graceFire
  /-- The close event of a destroyed socket reaches the pool handler
  (adapter.js lines 29-31). -/
  | closeDelivered
deriving Repr, DecidableEq

/-- The mutable state of one `sendTCPCommand` invocation, together with the
socket status and whether the registry still holds the connection's key. -/
structure St where
  phase : Phase
  /-- Promise settlement: `none` while pending; a settled promise never
  changes its outcome (first `resolve`/`reject` wins). -/
  settled : Option Outcome
  responseData : String
  dataAttached : Bool
  errorAttached : Bool
  timeoutArmed : Bool
  graceArmed : Bool
  /-- What was written to the socket, if anything (line 213). -/
  written : Option String
  destroyed : Bool
  /-- A destroy has happened but its close event is not yet delivered. -/
  closePending : Bool
  /-- Whether the pool map currently holds this connection's key. -/
  poolHasKey : Bool
deriving Repr, DecidableEq

/-- State at the start of `sendTCPCommand`, just after the timeout timer is
armed (line 172) and before the `await getConnection` resolves. -/
def initSt : St where
  phase := .connecting
  settled := none
  responseData := ""
  dataAttached := false
  errorAttached := false
  timeoutArmed := true
  graceArmed := false
  written := none
  destroyed := false
  closePending := false
  poolHasKey := false

/-- One-shot promise settlement: only the first `resolve`/`reject` call
records an outcome; later calls are no-ops on the settlement. -/
def settle (st : St) (o : Outcome) : St :=
  match st.settled with
  | some _ => st
  | none => { st with settled := some o }

/-- One event-loop callback of `sendTCPCommand`, translated line by line
from adapter.js lines 165-232. -/
def step (cfg : Config) (st : St) (ev : Ev) : St :=
  match ev with
  | .connectOk =>
    match st.phase with
    | .connecting =>
      -- lines 182-225: the await resolves; attach onData / onError, write
      -- `command + (delimiter || '')`, schedule the grace timer only if
      -- the effective delimiter is empty (line 216).
      { st with
          phase := .active
          poolHasKey := true
          dataAttached := true
          errorAttached := true
          written := some (cfg.command ++ effDelim cfg)
          graceArmed := decide (effDelim cfg = "") }
    | .active => st
  | .connectErr m =>
    match st.phase with
    | .connecting =>
      -- lines 227-231: clearTimeout, reject with the connect error.
      settle { st with phase := .active, timeoutArmed := false } (.connectError m)
    | .active => st
  | .data chunk =>
    -- onData (lines 186-198): runs only while attached; a destroyed socket
    -- emits no further data.
    if st.dataAttached = true ∧ st.destroyed = false then
      if effDelim cfg ≠ "" ∧ strHas (effDelim cfg) (st.responseData ++ chunk) = true then
        settle { st with
                  responseData := st.responseData ++ chunk
                  timeoutArmed := false
                  dataAttached := false
                  errorAttached := false } (.success (jsTrim (st.responseData ++ chunk)))
      else { st with responseData := st.responseData ++ chunk }
    else st
  | .socketError m =>
    -- onError (lines 200-205): clearTimeout, remove only the data
    -- listener, reject. The error listener itself stays attached.
    if st.errorAttached = true then
      settle { st with timeoutArmed := false, dataAttached := false } (.transportError m)
    else st
  | .timerFire =>
    -- lines 172-178: destroy the socket if one exists and reject; no
    -- listener is removed here.
    if st.timeoutArmed = true then
      if st.phase = Phase.active ∧ st.destroyed = false then
        settle { st with
                  timeoutArmed := false
                  destroyed := true
                  closePending := true } (.timeout (effTimeout cfg))
      else
        settle { st with timeoutArmed := false } (.timeout (effTimeout cfg))
    else st
  | .graceFire =>
    -- lines 218-224: cancel the outer timeout, remove both listeners,
    -- resolve with the accumulated data (untrimmed).
    if st.graceArmed = true then
      settle { st with
                graceArmed := false
                timeoutArmed := false
                dataAttached := false
                errorAttached := false } (.success st.responseData)
    else st
  | .closeDelivered =>
    -- pool close handler (lines 29-31): delete the key from the registry.
    if st.closePending = true then
      { st with closePending := false, poolHasKey := false }
    else st

/-- Run one `sendTCPCommand` invocation from an arbitrary state through a
sequence of event-loop callbacks. -/
def runFrom (cfg : Config) (st : St) (evs : List Ev) : St :=
  evs.foldl (step cfg) st

/-- Run one `sendTCPCommand` invocation from its initial state. -/
def run (cfg : Config) (evs : List Ev) : St :=
  runFrom cfg initSt evs

/-- Association-list lookup mirroring `Map.prototype.get`. -/
def mapGet (k : String) : List (String × Nat) → Option Nat
  | [] => none
  | (k', v) :: rest => if k' = k then some v else mapGet k rest

/-- `Map.prototype.set`: replace the entry for the key or append one. -/
def mapSet (k : String) (v : Nat) : List (String × Nat) → List (String × Nat)
  | [] => [(k, v)]
  | (k', v') :: rest => if k' = k then (k, v) :: rest else (k', v') :: mapSet k v rest

/-- `Map.prototype.delete`: remove the entry for the key. -/
def mapDel (k : String) : List (String × Nat) → List (String × Nat)
  | [] => []
  | (k', v') :: rest => if k' = k then rest else (k', v') :: mapDel k rest

/-- Whether the first components of an association list are pairwise
distinct (the JS `Map` holds at most one entry per key). -/
def keysNodupB : List (String × Nat) → Bool
  | [] => true
  | (k, _) :: rest => !(rest.any (fun e => e.1 = k)) && keysNodupB rest

/-- Number of entries stored under a given key. -/
def keyCount (k : String) (l : List (String × Nat)) : Nat :=
  (l.filter (fun e => e.1 = k)).length

/-- The `TCPConnectionPool` state: the key-to-socket map (sockets named by
numeric ids) and the set of destroyed socket ids. -/
structure Pool where
  conns : List (String × Nat)
  dead : List Nat
deriving Repr, DecidableEq

/-- The key string `` `${host}:${port}` `` (adapter.js line 12). -/
def keyOf (host : String) (port : Nat) : String :=
  host ++ ":" ++ toString port

/-- Result of a fresh `net.createConnection` attempt: the new socket id on
success, the error on failure. -/
inductive ConnectRes where
  | ok (nid : Nat)
  | err (msg : String)
deriving Repr, DecidableEq

/-- Lines 22-32 of adapter.js: create a socket; on connect the callback
stores it under the key and resolves; on error the promise rejects and
nothing is stored. -/
def connectNew (p : Pool) (key : String) (fresh : ConnectRes) : Except String Nat × Pool :=
  match fresh with
  | .ok nid => (.ok nid, { p with conns := mapSet key nid p.conns })
  | .err m => (.error m, p)

/-- `TCPConnectionPool.getConnection` (adapter.js lines 11-33), with the
outcome of a fresh connect attempt supplied as a parameter. -/
def getConnection (p : Pool) (host : String) (port : Nat) (fresh : ConnectRes) :
    Except String Nat × Pool :=
  match mapGet (keyOf host port) p.conns with
  | some id =>
    if id ∈ p.dead then
      connectNew { p with conns := mapDel (keyOf host port) p.conns } (keyOf host port) fresh
    else (.ok id, p)
  | none => connectNew p (keyOf host port) fresh

/-- The close observer installed at line 29: on the close notification the
entry for the key is deleted synchronously within the handler. -/
def poolOnClose (p : Pool) (key : String) : Pool :=
  { p with conns := mapDel key p.conns }

/-- The error observer installed at line 28 only rejects the (long-settled)
connect promise; it performs no registry mutation. -/
def poolOnError (p : Pool) (_key : String) : Pool :=
  p

/-- The synchronous prefix of `getConnection` up to starting a fresh
connect: the registry check (lines 14-20). `some id` is an immediate hit;
`none` means the caller proceeds to `net.createConnection`. -/
def acquireBegin (p : Pool) (key : String) : Option Nat × Pool :=
  match mapGet key p.conns with
  | some id =>
    if id ∈ p.dead then (none, { p with conns := mapDel key p.conns })
    else (some id, p)
  | none => (none, p)

/-- The connect callback of a fresh attempt (lines 23-25): store the new
socket under the key, silently overwriting any entry stored meanwhile. -/
def acquireFinish (p : Pool) (key : String) (nid : Nat) : Pool :=
  { p with conns := mapSet key nid p.conns }

/-- Invariant of the executor state machine, established at `initSt` and
preserved by every event: the grace timer is never armed (its scheduling
condition is unsatisfiable after the `||` defaulting), settlement and the
outer timer disarm together, a destroyed socket means a settled command,
nothing is attached or written while connecting, and settled outcomes
constrain the listener flags and the response shape. -/
structure ExecInv (cfg : Config) (st : St) : Prop where
  grace : st.graceArmed = false
  armedSettled : st.timeoutArmed = false → st.settled.isSome = true
  settledArmed : st.settled.isSome = true → st.timeoutArmed = false
  destroyedSettled : st.destroyed = true → st.settled.isSome = true
  connecting : st.phase = Phase.connecting →
    st.written = none ∧ st.dataAttached = false ∧ st.errorAttached = false ∧
      st.destroyed = false
  connSettled : st.phase = Phase.connecting →
    st.settled = none ∨ st.settled = some (Outcome.timeout (effTimeout cfg))
  success : ∀ s, st.settled = some (Outcome.success s) →
    st.dataAttached = false ∧ st.errorAttached = false ∧
      ∃ d, s = jsTrim d ∧ strHas (effDelim cfg) d = true
  transport : ∀ m, st.settled = some (Outcome.transportError m) →
    st.dataAttached = false

/-- Invariant of a `sendTCPCommand` invocation whose `getConnection` await
has not yet completed: nothing is written or attached, and the only
possible settlement so far is the outer timeout. -/
structure ConnInv (cfg : Config) (st : St) : Prop where
  phase : st.phase = Phase.connecting
  written : st.written = none
  dataOff : st.dataAttached = false
  errOff : st.errorAttached = false
  notDestroyed : st.destroyed = false
  grace : st.graceArmed = false
  noClose : st.closePending = false
  pend : st.settled = none → st.timeoutArmed = true
  outc : st.settled = none ∨ st.settled = some (Outcome.timeout (effTimeout cfg))

theorem effDelim_ne (cfg : Config) : effDelim cfg ≠ "" := by
  unfold effDelim
  cases cfg.delimOpt with
  | none => decide
  | some d =>
    by_cases h : d = ""
    · simp [h]
    · simp [h]

theorem settle_of_none (st : St) (o : Outcome) (h : st.settled = none) :
    settle st o = { st with settled := some o } := by
  unfold settle; rw [h]

theorem settle_of_some (st : St) (o o' : Outcome) (h : st.settled = some o') :
    settle st o = st := by
  unfold settle; rw [h]

theorem settle_dataAttached (st : St) (o : Outcome) :
    (settle st o).dataAttached = st.dataAttached := by
  unfold settle; cases st.settled <;> rfl

theorem settle_errorAttached (st : St) (o : Outcome) :
    (settle st o).errorAttached = st.errorAttached := by
  unfold settle; cases st.settled <;> rfl

theorem settle_timeoutArmed (st : St) (o : Outcome) :
    (settle st o).timeoutArmed = st.timeoutArmed := by
  unfold settle; cases st.settled <;> rfl

theorem runFrom_nil (cfg : Config) (st : St) : runFrom cfg st [] = st := rfl

theorem runFrom_cons (cfg : Config) (st : St) (e : Ev) (evs : List Ev) :
    runFrom cfg st (e :: evs) = runFrom cfg (step cfg st e) evs := rfl

theorem run_append (cfg : Config) (evs evs' : List Ev) :
    run cfg (evs ++ evs') = runFrom cfg (run cfg evs) evs' := by
  simp [run, runFrom, List.foldl_append]

theorem initExecInv (cfg : Config) : ExecInv cfg initSt :=
  ⟨rfl, fun hc => Bool.noConfusion hc, fun hc => Bool.noConfusion hc,
   fun hc => Bool.noConfusion hc, fun _ => ⟨rfl, rfl, rfl, rfl⟩,
   fun _ => Or.inl rfl, fun _ hs => Option.noConfusion hs,
   fun _ hs => Option.noConfusion hs⟩


theorem stepExecInv (cfg : Config) (st : St) (ev : Ev) (h : ExecInv cfg st) :
    ExecInv cfg (step cfg st ev) := by
  cases ev with
  | connectOk =>
    cases hp : st.phase with
    | active => simpa only [step, hp] using h
    | connecting =>
      have hso := h.connSettled hp
      simp only [step, hp]
      exact ⟨decide_eq_false (effDelim_ne cfg), h.armedSettled, h.settledArmed,
             h.destroyedSettled, fun hc => Phase.noConfusion hc,
             fun hc => Phase.noConfusion hc,
             fun s hs => by rcases hso with h0 | h0 <;> simp [h0] at hs,
             fun m hs => by rcases hso with h0 | h0 <;> simp [h0] at hs⟩
  | connectErr m =>
    cases hp : st.phase with
    | active => simpa only [step, hp] using h
    | connecting =>
      have hso := h.connSettled hp
      simp only [step, hp]
      cases hs : st.settled with
      | none =>
        exact ⟨h.grace, fun _ => rfl, fun _ => rfl, fun _ => rfl,
               fun hc => Phase.noConfusion hc, fun hc => Phase.noConfusion hc,
               fun s hs2 => by simp [settle] at hs2,
               fun m' hs2 => by simp [settle] at hs2⟩
      | some o =>
        rcases hso with h0 | h0
        · rw [hs] at h0; exact Option.noConfusion h0
        · rw [hs] at h0
          obtain rfl := Option.some.inj h0
          exact ⟨h.grace, fun _ => rfl, fun _ => rfl, fun _ => rfl,
                 fun hc => Phase.noConfusion hc, fun hc => Phase.noConfusion hc,
                 fun s hs2 => by simp [settle] at hs2,
                 fun m' hs2 => by simp [settle] at hs2⟩
  | data chunk =>
    by_cases hgu : st.dataAttached = true ∧ st.destroyed = false
    · have hpA : st.phase = Phase.active := by
        cases hp : st.phase
        · exact absurd (h.connecting hp).2.1 (by simp [hgu.1])
        · rfl
      by_cases hm : effDelim cfg ≠ "" ∧
          strHas (effDelim cfg) (st.responseData ++ chunk) = true
      · simp only [step]
        rw [if_pos hgu, if_pos hm]
        cases hs : st.settled with
        | none =>
          refine ⟨h.grace, fun _ => rfl, fun _ => rfl, fun _ => rfl,
                 fun hc => by rw [hpA] at hc; exact Phase.noConfusion hc,
                 fun hc => by rw [hpA] at hc; exact Phase.noConfusion hc,
                 fun s hs2 => ?_, fun m hs2 => by simp [settle] at hs2⟩
          simp only [settle, Option.some.injEq, Outcome.success.injEq] at hs2
          exact ⟨rfl, rfl, st.responseData ++ chunk, hs2.symm, hm.2⟩
        | some o =>
          exact ⟨h.grace, fun _ => rfl, fun _ => rfl, fun _ => rfl,
                 fun hc => by rw [hpA] at hc; exact Phase.noConfusion hc,
                 fun hc => by rw [hpA] at hc; exact Phase.noConfusion hc,
                 fun s hs2 => absurd (h.success s (hs.trans hs2)).1 (by simp [hgu.1]),
                 fun m hs2 => rfl⟩
      · simp only [step]
        rw [if_pos hgu, if_neg hm]
        exact ⟨h.grace, h.armedSettled, h.settledArmed, h.destroyedSettled,
               h.connecting, h.connSettled, h.success, h.transport⟩
    · simp only [step]
      rw [if_neg hgu]
      exact h
  | socketError m =>
    by_cases he : st.errorAttached = true
    · have hpA : st.phase = Phase.active := by
        cases hp : st.phase
        · exact absurd (h.connecting hp).2.2.1 (by simp [he])
        · rfl
      simp only [step]
      rw [if_pos he]
      cases hs : st.settled with
      | none =>
        exact ⟨h.grace, fun _ => rfl, fun _ => rfl, fun _ => rfl,
               fun hc => by rw [hpA] at hc; exact Phase.noConfusion hc,
               fun hc => by rw [hpA] at hc; exact Phase.noConfusion hc,
               fun s hs2 => by simp [settle] at hs2, fun m' hs2 => rfl⟩
      | some o =>
        exact ⟨h.grace, fun _ => rfl, fun _ => rfl, fun _ => rfl,
               fun hc => by rw [hpA] at hc; exact Phase.noConfusion hc,
               fun hc => by rw [hpA] at hc; exact Phase.noConfusion hc,
               fun s hs2 => absurd (h.success s (hs.trans hs2)).2.1 (by simp [he]),
               fun m' hs2 => rfl⟩
    · simp only [step]
      rw [if_neg he]
      exact h
  | timerFire =>
    by_cases ha : st.timeoutArmed = true
    · simp only [step]
      rw [if_pos ha]
      cases hs : st.settled with
      | some o => exact absurd (h.settledArmed (by simp [hs])) (by simp [ha])
      | none =>
        by_cases hp : st.phase = Phase.active ∧ st.destroyed = false
        · rw [if_pos hp]
          exact ⟨h.grace, fun _ => rfl, fun _ => rfl, fun _ => rfl,
                 fun hc => by rw [hp.1] at hc; exact Phase.noConfusion hc,
                 fun hc => by rw [hp.1] at hc; exact Phase.noConfusion hc,
                 fun s hs2 => by simp [settle] at hs2,
                 fun m hs2 => by simp [settle] at hs2⟩
        · rw [if_neg hp]
          exact ⟨h.grace, fun _ => rfl, fun _ => rfl, fun _ => rfl,
                 fun hc => h.connecting hc, fun _ => Or.inr rfl,
                 fun s hs2 => by simp [settle] at hs2,
                 fun m hs2 => by simp [settle] at hs2⟩
    · simp only [step]
      rw [if_neg ha]
      exact h
  | graceFire =>
    simp only [step]
    rw [if_neg (show ¬st.graceArmed = true by simp [h.grace])]
    exact h
  | closeDelivered =>
    by_cases hc : st.closePending = true
    · simp only [step]
      rw [if_pos hc]
      exact ⟨h.grace, h.armedSettled, h.settledArmed, h.destroyedSettled,
             h.connecting, h.connSettled, h.success, h.transport⟩
    · simp only [step]
      rw [if_neg hc]
      exact h

theorem runFromExecInv (cfg : Config) (evs : List Ev) :
    ∀ st : St, ExecInv cfg st → ExecInv cfg (runFrom cfg st evs) := by
  induction evs with
  | nil => exact fun st h => h
  | cons e rest ih =>
    intro st h
    exact ih (step cfg st e) (stepExecInv cfg st e h)

theorem runExecInv (cfg : Config) (evs : List Ev) : ExecInv cfg (run cfg evs) :=
  runFromExecInv cfg evs initSt (initExecInv cfg)

theorem stepSettledMono (cfg : Config) (st : St) (ev : Ev) (o : Outcome)
    (h : st.settled = some o) : (step cfg st ev).settled = some o := by
  cases ev with
  | connectOk => simp only [step]; split <;> exact h
  | connectErr m =>
    simp only [step]
    split
    · rw [h]; rfl
    · exact h
  | data chunk =>
    simp only [step]
    split
    · split
      · rw [h]; rfl
      · exact h
    · exact h
  | socketError m =>
    simp only [step]
    split
    · rw [h]; rfl
    · exact h
  | timerFire =>
    simp only [step]
    split
    · split
      · rw [h]; rfl
      · rw [h]; rfl
    · exact h
  | graceFire =>
    simp only [step]
    split
    · rw [h]; rfl
    · exact h
  | closeDelivered => simp only [step]; split <;> exact h

theorem runFromSettledMono (cfg : Config) (evs : List Ev) :
    ∀ (st : St) (o : Outcome), st.settled = some o →
      (runFrom cfg st evs).settled = some o := by
  induction evs with
  | nil => exact fun _ _ h => h
  | cons e rest ih =>
    exact fun st o h => ih (step cfg st e) o (stepSettledMono cfg st e o h)

theorem settleNoConnErr (st : St) (oX : Outcome)
    (hX : ∀ m, oX ≠ Outcome.connectError m)
    (h : ∀ m, st.settled ≠ some (Outcome.connectError m))
    (base : St) (hbase : base.settled = st.settled) :
    ∀ m, (settle base oX).settled ≠ some (Outcome.connectError m) := by
  intro m hm
  cases hs : st.settled with
  | none =>
    rw [settle_of_none base oX (hbase.trans hs)] at hm
    exact hX m (Option.some.inj (show some oX = some (Outcome.connectError m) from hm))
  | some o =>
    rw [settle_of_some base oX o (hbase.trans hs)] at hm
    exact h m (hbase.symm.trans hm)

theorem stepNoConnErr (cfg : Config) (st : St) (ev : Ev)
    (hev : ∀ m, ev ≠ Ev.connectErr m)
    (h : ∀ m, st.settled ≠ some (Outcome.connectError m)) :
    ∀ m, (step cfg st ev).settled ≠ some (Outcome.connectError m) := by
  cases ev with
  | connectOk => simp only [step]; split <;> exact h
  | connectErr m => exact absurd rfl (hev m)
  | data chunk =>
    simp only [step]
    split
    · split
      · exact settleNoConnErr st _ (fun _ hm => Outcome.noConfusion hm) h _ rfl
      · exact h
    · exact h
  | socketError m =>
    simp only [step]
    split
    · exact settleNoConnErr st _ (fun _ hm => Outcome.noConfusion hm) h _ rfl
    · exact h
  | timerFire =>
    simp only [step]
    split
    · split <;> exact settleNoConnErr st _ (fun _ hm => Outcome.noConfusion hm) h _ rfl
    · exact h
  | graceFire =>
    simp only [step]
    split
    · exact settleNoConnErr st _ (fun _ hm => Outcome.noConfusion hm) h _ rfl
    · exact h
  | closeDelivered => simp only [step]; split <;> exact h

theorem runFromNoConnErr (cfg : Config) (evs : List Ev) :
    ∀ st : St, (∀ e ∈ evs, ∀ m, e ≠ Ev.connectErr m) →
      (∀ m, st.settled ≠ some (Outcome.connectError m)) →
      ∀ m, (runFrom cfg st evs).settled ≠ some (Outcome.connectError m) := by
  induction evs with
  | nil => exact fun _ _ h => h
  | cons e rest ih =>
    intro st hevs h
    exact ih (step cfg st e) (fun e' he' => hevs e' (List.mem_cons_of_mem e he'))
      (stepNoConnErr cfg st e (hevs e (List.mem_cons_self e rest)) h)

theorem initConnInv (cfg : Config) : ConnInv cfg initSt :=
  ⟨rfl, rfl, rfl, rfl, rfl, rfl, rfl, fun _ => rfl, Or.inl rfl⟩

theorem stepConnInv (cfg : Config) (st : St) (ev : Ev)
    (hOk : ev ≠ Ev.connectOk) (hErr : ∀ m, ev ≠ Ev.connectErr m)
    (h : ConnInv cfg st) : ConnInv cfg (step cfg st ev) := by
  cases ev with
  | connectOk => exact absurd rfl hOk
  | connectErr m => exact absurd rfl (hErr m)
  | data chunk =>
    simp only [step]
    rw [if_neg (show ¬(st.dataAttached = true ∧ st.destroyed = false) from
      fun hc => by simp [h.dataOff] at hc)]
    exact h
  | socketError m =>
    simp only [step]
    rw [if_neg (show ¬st.errorAttached = true by simp [h.errOff])]
    exact h
  | timerFire =>
    by_cases ha : st.timeoutArmed = true
    · simp only [step]
      rw [if_pos ha,
          if_neg (fun hc => Phase.noConfusion (h.phase.symm.trans hc.1))]
      cases hs : st.settled with
      | none =>
        exact ⟨h.phase, h.written, h.dataOff, h.errOff, h.notDestroyed, h.grace,
               h.noClose, fun hc => by simp [settle] at hc, Or.inr rfl⟩
      | some o =>
        rcases h.outc with h0 | h0
        · rw [hs] at h0; exact Option.noConfusion h0
        · rw [hs] at h0
          obtain rfl := Option.some.inj h0
          exact ⟨h.phase, h.written, h.dataOff, h.errOff, h.notDestroyed, h.grace,
                 h.noClose, fun hc => by simp [settle] at hc, Or.inr rfl⟩
    · simp only [step]
      rw [if_neg ha]
      exact h
  | graceFire =>
    simp only [step]
    rw [if_neg (show ¬st.graceArmed = true by simp [h.grace])]
    exact h
  | closeDelivered =>
    simp only [step]
    rw [if_neg (show ¬st.closePending = true by simp [h.noClose])]
    exact h

theorem runFromConnInv (cfg : Config) (evs : List Ev) :
    ∀ st : St, (∀ e ∈ evs, e ≠ Ev.connectOk ∧ ∀ m, e ≠ Ev.connectErr m) →
      ConnInv cfg st → ConnInv cfg (runFrom cfg st evs) := by
  induction evs with
  | nil => exact fun _ _ h => h
  | cons e rest ih =>
    intro st hevs h
    exact ih (step cfg st e) (fun e' he' => hevs e' (List.mem_cons_of_mem e he'))
      (stepConnInv cfg st e (hevs e (List.mem_cons_self e rest)).1
        (hevs e (List.mem_cons_self e rest)).2 h)

theorem connTimerFire (cfg : Config) (st : St) (h : ConnInv cfg st) :
    (step cfg st Ev.timerFire).settled = some (Outcome.timeout (effTimeout cfg)) ∧
      (step cfg st Ev.timerFire).written = none := by
  by_cases ha : st.timeoutArmed = true
  · simp only [step]
    rw [if_pos ha,
        if_neg (fun hc => Phase.noConfusion (h.phase.symm.trans hc.1))]
    cases hs : st.settled with
    | none => exact ⟨rfl, h.written⟩
    | some o =>
      rcases h.outc with h0 | h0
      · rw [hs] at h0; exact Option.noConfusion h0
      · rw [hs] at h0
        obtain rfl := Option.some.inj h0
        exact ⟨rfl, h.written⟩
  · simp only [step]
    rw [if_neg ha]
    rcases h.outc with h0 | h0
    · exact absurd (h.pend h0) ha
    · exact ⟨h0, h.written⟩

theorem mapGet_eq_none (k : String) (l : List (String × Nat))
    (h : ∀ e ∈ l, e.1 ≠ k) : mapGet k l = none := by
  induction l with
  | nil => rfl
  | cons e rest ih =>
    obtain ⟨k', v⟩ := e
    simp only [mapGet]
    rw [if_neg (h (k', v) (List.mem_cons_self _ rest))]
    exact ih (fun e' he' => h e' (List.mem_cons_of_mem _ he'))

theorem mapGet_mapSet_self (k : String) (v : Nat) (l : List (String × Nat)) :
    mapGet k (mapSet k v l) = some v := by
  induction l with
  | nil => simp [mapSet, mapGet]
  | cons e rest ih =>
    obtain ⟨k', v'⟩ := e
    by_cases hk : k' = k
    · simp [mapSet, mapGet, hk]
    · simp only [mapSet, hk, if_false]
      simp only [mapGet, hk, if_false]
      exact ih

theorem mapGet_mapDel_self (k : String) (l : List (String × Nat))
    (h : keysNodupB l = true) : mapGet k (mapDel k l) = none := by
  induction l with
  | nil => rfl
  | cons e rest ih =>
    obtain ⟨k', v'⟩ := e
    simp only [keysNodupB, Bool.and_eq_true, Bool.not_eq_true'] at h
    by_cases hk : k' = k
    · simp only [mapDel, hk, if_true, if_pos]
      refine mapGet_eq_none k rest (fun e' he' => ?_)
      have := h.1
      rw [List.any_eq_false] at this
      have h2 := this e' he'
      simp only [decide_eq_true_eq] at h2
      rw [hk] at h2
      exact h2
    · simp only [mapDel, hk, if_false]
      simp only [mapGet, hk, if_false]
      exact ih h.2

theorem anyKey_mapDel (k k' : String) (l : List (String × Nat))
    (h : (l.any fun e => decide (e.1 = k')) = false) :
    ((mapDel k l).any fun e => decide (e.1 = k')) = false := by
  induction l with
  | nil => rfl
  | cons e rest ih =>
    obtain ⟨k0, v0⟩ := e
    simp only [List.any_cons, Bool.or_eq_false_iff] at h
    by_cases hk : k0 = k
    · simp only [mapDel, hk, if_true, if_pos]
      exact h.2
    · simp only [mapDel, hk, if_false, List.any_cons, Bool.or_eq_false_iff]
      exact ⟨h.1, ih h.2⟩

theorem keysNodupB_mapDel (k : String) (l : List (String × Nat))
    (h : keysNodupB l = true) : keysNodupB (mapDel k l) = true := by
  induction l with
  | nil => rfl
  | cons e rest ih =>
    obtain ⟨k', v'⟩ := e
    simp only [keysNodupB, Bool.and_eq_true, Bool.not_eq_true'] at h
    by_cases hk : k' = k
    · simp only [mapDel, hk, if_true, if_pos]
      exact h.2
    · simp only [mapDel, hk, if_false, keysNodupB, Bool.and_eq_true, Bool.not_eq_true']
      exact ⟨anyKey_mapDel k k' rest h.1, ih h.2⟩

theorem anyKey_mapSet (k k' : String) (v : Nat) (l : List (String × Nat))
    (h : (l.any fun e => decide (e.1 = k')) = false) (hne : ¬k = k') :
    ((mapSet k v l).any fun e => decide (e.1 = k')) = false := by
  induction l with
  | nil => simp [mapSet, hne]
  | cons e rest ih =>
    obtain ⟨k0, v0⟩ := e
    simp only [List.any_cons, Bool.or_eq_false_iff] at h
    by_cases hk : k0 = k
    · simp only [mapSet, hk, if_true, if_pos, List.any_cons, Bool.or_eq_false_iff]
      exact ⟨by simpa using hne, h.2⟩
    · simp only [mapSet, hk, if_false, List.any_cons, Bool.or_eq_false_iff]
      exact ⟨h.1, ih h.2⟩

theorem keysNodupB_mapSet (k : String) (v : Nat) (l : List (String × Nat))
    (h : keysNodupB l = true) : keysNodupB (mapSet k v l) = true := by
  induction l with
  | nil => simp [mapSet, keysNodupB]
  | cons e rest ih =>
    obtain ⟨k', v'⟩ := e
    simp only [keysNodupB, Bool.and_eq_true, Bool.not_eq_true'] at h
    by_cases hk : k' = k
    · simp only [mapSet, hk, if_true, if_pos, keysNodupB, Bool.and_eq_true,
                 Bool.not_eq_true']
      refine ⟨?_, h.2⟩
      have := h.1
      rw [hk] at this
      exact this
    · simp only [mapSet, hk, if_false, keysNodupB, Bool.and_eq_true, Bool.not_eq_true']
      exact ⟨anyKey_mapSet k k' v rest h.1 (fun hc => hk hc.symm), ih h.2⟩

theorem keyCount_eq_zero (k : String) (l : List (String × Nat))
    (h : ∀ e ∈ l, e.1 ≠ k) : keyCount k l = 0 := by
  induction l with
  | nil => rfl
  | cons e rest ih =>
    obtain ⟨k', v'⟩ := e
    simp only [keyCount, List.filter]
    rw [show (decide ((k', v').1 = k)) = false by
      simpa using h (k', v') (List.mem_cons_self _ rest)]
    exact ih (fun e' he' => h e' (List.mem_cons_of_mem _ he'))

theorem keyCount_le_one (k : String) (l : List (String × Nat))
    (h : keysNodupB l = true) : keyCount k l ≤ 1 := by
  induction l with
  | nil => exact Nat.zero_le 1
  | cons e rest ih =>
    obtain ⟨k', v'⟩ := e
    simp only [keysNodupB, Bool.and_eq_true, Bool.not_eq_true'] at h
    by_cases hk : k' = k
    · simp only [keyCount, List.filter, hk, decide_True]
      have hz : keyCount k rest = 0 := by
        refine keyCount_eq_zero k rest (fun e' he' => ?_)
        have := h.1
        rw [List.any_eq_false] at this
        have h2 := this e' he'
        simp only [decide_eq_true_eq] at h2
        rw [hk] at h2
        exact h2
      simp only [keyCount] at hz
      simp [hz]
    · simp only [keyCount, List.filter]
      rw [show (decide ((k', v').1 = k)) = false by simpa using hk]
      exact ih h.2

theorem values_mapSet (k : String) (v w : Nat) (l : List (String × Nat))
    (hv : v ∉ l.map Prod.snd) (hne : v ≠ w) :
    v ∉ (mapSet k w l).map Prod.snd := by
  induction l with
  | nil => simp [mapSet, hne]
  | cons e rest ih =>
    obtain ⟨k', v'⟩ := e
    simp only [List.map_cons, List.mem_cons] at hv
    push_neg at hv
    by_cases hk : k' = k
    · simp only [mapSet, hk, if_true, if_pos, List.map_cons, List.mem_cons]
      push_neg
      exact ⟨hne, hv.2⟩
    · simp only [mapSet, hk, if_false, List.map_cons, List.mem_cons]
      push_neg
      exact ⟨hv.1, ih hv.2⟩

theorem mapSet_mapSet (k : String) (v w : Nat) (l : List (String × Nat)) :
    mapSet k w (mapSet k v l) = mapSet k w l := by
  induction l with
  | nil => simp [mapSet]
  | cons e rest ih =>
    obtain ⟨k', v'⟩ := e
    by_cases hk : k' = k
    · simp [mapSet, hk]
    · simp only [mapSet, hk, if_false, if_neg hk]
      rw [ih]

theorem getConnection_hit (p : Pool) (host : String) (port : Nat) (id : Nat)
    (f : ConnectRes) (hl : mapGet (keyOf host port) p.conns = some id)
    (hd : id ∉ p.dead) : getConnection p host port f = (Except.ok id, p) := by
  simp only [getConnection, hl]
  rw [if_neg hd]

theorem getConnection_miss (p : Pool) (host : String) (port : Nat) (nid : Nat)
    (hl : mapGet (keyOf host port) p.conns = none) :
    getConnection p host port (ConnectRes.ok nid)
      = (Except.ok nid, { p with conns := mapSet (keyOf host port) nid p.conns }) := by
  simp only [getConnection, hl, connectNew]

theorem getConnection_missErr (p : Pool) (host : String) (port : Nat) (m : String)
    (hl : mapGet (keyOf host port) p.conns = none) :
    getConnection p host port (ConnectRes.err m) = (Except.error m, p) := by
  simp only [getConnection, hl, connectNew]

theorem getConnection_stale (p : Pool) (host : String) (port : Nat) (id nid : Nat)
    (hl : mapGet (keyOf host port) p.conns = some id) (hd : id ∈ p.dead) :
    getConnection p host port (ConnectRes.ok nid)
      = (Except.ok nid,
         { p with conns := mapSet (keyOf host port) nid (mapDel (keyOf host port) p.conns) }) := by
  simp only [getConnection, hl, connectNew]
  rw [if_pos hd]

theorem keysNodupB_getConnection (p : Pool) (host : String) (port : Nat)
    (f : ConnectRes) (h : keysNodupB p.conns = true) :
    keysNodupB (getConnection p host port f).2.conns = true := by
  cases hl : mapGet (keyOf host port) p.conns with
  | some id =>
    by_cases hd : id ∈ p.dead
    · cases f with
      | ok nid =>
        rw [getConnection_stale p host port id nid hl hd]
        exact keysNodupB_mapSet _ _ _ (keysNodupB_mapDel _ _ h)
      | err m =>
        simp only [getConnection, hl, connectNew]
        rw [if_pos hd]
        exact keysNodupB_mapDel _ _ h
    · rw [getConnection_hit p host port id f hl hd]
      exact h
  | none =>
    cases f with
    | ok nid =>
      rw [getConnection_miss p host port nid hl]
      exact keysNodupB_mapSet _ _ _ h
    | err m =>
      rw [getConnection_missErr p host port m hl]
      exact h

theorem acquireBegin_miss (p : Pool) (key : String)
    (hl : mapGet key p.conns = none) : acquireBegin p key = (none, p) := by
  simp only [acquireBegin, hl]

/-- C1: the claim says that with `delimiter=""` and no inbound data,
`execute` resolves with an empty result after the grace period instead of
timing out. On the code this fails: `options.delimiter || '\n'` coerces the
empty string (falsy in JS) to the default newline, so the effective
delimiter of such a request is `"\n"`, the grace timer is never armed on
any run, and with no inbound data the invocation rejects with Timeout after
the full `timeoutMs` (here 5000 ms) with an empty accumulated buffer. The
grace delay the claim expects, `min(5000, 1000) = 1000` ms, never fires. -/
theorem c1_emptyDelimiterTimesOut :
    effDelim { command := "PING", timeoutOpt := some 5000, delimOpt := some "" } = "\n" ∧
    graceDelay { command := "PING", timeoutOpt := some 5000, delimOpt := some "" } = 1000 ∧
    (∀ (cfg : Config) (evs : List Ev), (run cfg evs).graceArmed = false) ∧
    (run { command := "PING", timeoutOpt := some 5000, delimOpt := some "" }
        [Ev.connectOk, Ev.timerFire]).settled = some (Outcome.timeout 5000) ∧
    (run { command := "PING", timeoutOpt := some 5000, delimOpt := some "" }
        [Ev.connectOk, Ev.timerFire]).responseData = "" :=
  ⟨by decide, by decide, fun cfg evs => (runExecInv cfg evs).grace, by decide, by decide⟩

/-- C2 counterexample: on the timeout exit path neither the data listener
nor the error listener is removed (the handler at adapter.js lines 172-178
only destroys the socket), and on the connection-error exit path the error
listener stays attached (line 203 removes only the data listener). This
refutes the claim that both listeners are removed on every exit path. -/
theorem c2_listenersLeak :
    (run { command := "GET_STATUS", timeoutOpt := none, delimOpt := none }
        [Ev.connectOk, Ev.timerFire]).settled = some (Outcome.timeout 5000) ∧
    (run { command := "GET_STATUS", timeoutOpt := none, delimOpt := none }
        [Ev.connectOk, Ev.timerFire]).dataAttached = true ∧
    (run { command := "GET_STATUS", timeoutOpt := none, delimOpt := none }
        [Ev.connectOk, Ev.timerFire]).errorAttached = true ∧
    (run { command := "GET_STATUS", timeoutOpt := none, delimOpt := none }
        [Ev.connectOk, Ev.socketError "ECONNRESET"]).settled
      = some (Outcome.transportError "ECONNRESET") ∧
    (run { command := "GET_STATUS", timeoutOpt := none, delimOpt := none }
        [Ev.connectOk, Ev.socketError "ECONNRESET"]).errorAttached = true := by
  decide

/-- C2 (amended): cleanup on the exit paths as the code actually performs
it. On success both listeners are removed and the timer is cancelled; on a
connection error the data listener is removed and the timer is cancelled
but the error listener is retained (the onError handler, line 203, touches
no other listener); the timeout handler removes no listener at all (it only
destroys the socket); and on every settlement, timeout included, the outer
timer is no longer armed. -/
theorem c2_releaseDiscipline (cfg : Config) (evs : List Ev) :
    (∀ s, (run cfg evs).settled = some (Outcome.success s) →
      (run cfg evs).dataAttached = false ∧ (run cfg evs).errorAttached = false ∧
        (run cfg evs).timeoutArmed = false) ∧
    (∀ m, (run cfg evs).settled = some (Outcome.transportError m) →
      (run cfg evs).dataAttached = false ∧ (run cfg evs).timeoutArmed = false) ∧
    ((run cfg evs).settled.isSome = true → (run cfg evs).timeoutArmed = false) ∧
    (∀ st : St, (step cfg st Ev.timerFire).dataAttached = st.dataAttached ∧
      (step cfg st Ev.timerFire).errorAttached = st.errorAttached) ∧
    (∀ (st : St) (m : String),
      (step cfg st (Ev.socketError m)).errorAttached = st.errorAttached ∧
      (st.errorAttached = true →
        (step cfg st (Ev.socketError m)).dataAttached = false ∧
        (step cfg st (Ev.socketError m)).timeoutArmed = false)) := by
  have h := runExecInv cfg evs
  refine ⟨fun s hs => ⟨(h.success s hs).1, (h.success s hs).2.1,
           h.settledArmed (by simp [hs])⟩,
         fun m hm => ⟨h.transport m hm, h.settledArmed (by simp [hm])⟩,
         h.settledArmed, fun st => ⟨?_, ?_⟩, fun st m => ⟨?_, fun he => ⟨?_, ?_⟩⟩⟩
  · simp only [step]
    split
    · split <;> rw [settle_dataAttached]
    · rfl
  · simp only [step]
    split
    · split <;> rw [settle_errorAttached]
    · rfl
  · simp only [step]
    split
    · rw [settle_errorAttached]
    · rfl
  · simp only [step]
    rw [if_pos he, settle_dataAttached]
  · simp only [step]
    rw [if_pos he, settle_timeoutArmed]

/-- C2 witness: a concrete successful run through the release theorem, the
timeout handler's listener frame at a concrete connected state, and the
error handler's behavior at a concrete attached state. -/
theorem c2_releaseDiscipline_witness :
    (run { command := "GET_STATUS", timeoutOpt := none, delimOpt := none }
        [Ev.connectOk, Ev.data "STATUS_OK\n"]).settled
      = some (Outcome.success "STATUS_OK") ∧
    (run { command := "GET_STATUS", timeoutOpt := none, delimOpt := none }
        [Ev.connectOk, Ev.data "STATUS_OK\n"]).dataAttached = false ∧
    (run { command := "GET_STATUS", timeoutOpt := none, delimOpt := none }
        [Ev.connectOk, Ev.data "STATUS_OK\n"]).errorAttached = false ∧
    (run { command := "GET_STATUS", timeoutOpt := none, delimOpt := none }
        [Ev.connectOk, Ev.data "STATUS_OK\n"]).timeoutArmed = false ∧
    (step { command := "GET_STATUS", timeoutOpt := none, delimOpt := none }
        (run { command := "GET_STATUS", timeoutOpt := none, delimOpt := none }
          [Ev.connectOk]) Ev.timerFire).dataAttached
      = (run { command := "GET_STATUS", timeoutOpt := none, delimOpt := none }
          [Ev.connectOk]).dataAttached ∧
    (step { command := "GET_STATUS", timeoutOpt := none, delimOpt := none }
        (run { command := "GET_STATUS", timeoutOpt := none, delimOpt := none }
          [Ev.connectOk]) Ev.timerFire).errorAttached
      = (run { command := "GET_STATUS", timeoutOpt := none, delimOpt := none }
          [Ev.connectOk]).errorAttached ∧
    (step { command := "GET_STATUS", timeoutOpt := none, delimOpt := none }
        (run { command := "GET_STATUS", timeoutOpt := none, delimOpt := none }
          [Ev.connectOk]) (Ev.socketError "ECONNRESET")).errorAttached
      = (run { command := "GET_STATUS", timeoutOpt := none, delimOpt := none }
          [Ev.connectOk]).errorAttached ∧
    (step { command := "GET_STATUS", timeoutOpt := none, delimOpt := none }
        (run { command := "GET_STATUS", timeoutOpt := none, delimOpt := none }
          [Ev.connectOk]) (Ev.socketError "ECONNRESET")).dataAttached = false ∧
    (step { command := "GET_STATUS", timeoutOpt := none, delimOpt := none }
        (run { command := "GET_STATUS", timeoutOpt := none, delimOpt := none }
          [Ev.connectOk]) (Ev.socketError "ECONNRESET")).timeoutArmed = false :=
  ⟨by decide,
   ((c2_releaseDiscipline { command := "GET_STATUS", timeoutOpt := none, delimOpt := none }
      [Ev.connectOk, Ev.data "STATUS_OK\n"]).1 "STATUS_OK" (by decide)).1,
   ((c2_releaseDiscipline { command := "GET_STATUS", timeoutOpt := none, delimOpt := none }
      [Ev.connectOk, Ev.data "STATUS_OK\n"]).1 "STATUS_OK" (by decide)).2.1,
   ((c2_releaseDiscipline { command := "GET_STATUS", timeoutOpt := none, delimOpt := none }
      [Ev.connectOk, Ev.data "STATUS_OK\n"]).1 "STATUS_OK" (by decide)).2.2,
   ((c2_releaseDiscipline { command := "GET_STATUS", timeoutOpt := none, delimOpt := none }
      [Ev.connectOk, Ev.data "STATUS_OK\n"]).2.2.2.1
     (run { command := "GET_STATUS", timeoutOpt := none, delimOpt := none }
       [Ev.connectOk])).1,
   ((c2_releaseDiscipline { command := "GET_STATUS", timeoutOpt := none, delimOpt := none }
      [Ev.connectOk, Ev.data "STATUS_OK\n"]).2.2.2.1
     (run { command := "GET_STATUS", timeoutOpt := none, delimOpt := none }
       [Ev.connectOk])).2,
   ((c2_releaseDiscipline { command := "GET_STATUS", timeoutOpt := none, delimOpt := none }
      [Ev.connectOk, Ev.data "STATUS_OK\n"]).2.2.2.2
     (run { command := "GET_STATUS", timeoutOpt := none, delimOpt := none }
       [Ev.connectOk]) "ECONNRESET").1,
   (((c2_releaseDiscipline { command := "GET_STATUS", timeoutOpt := none, delimOpt := none }
      [Ev.connectOk, Ev.data "STATUS_OK\n"]).2.2.2.2
     (run { command := "GET_STATUS", timeoutOpt := none, delimOpt := none }
       [Ev.connectOk]) "ECONNRESET").2 (by decide)).1,
   (((c2_releaseDiscipline { command := "GET_STATUS", timeoutOpt := none, delimOpt := none }
      [Ev.connectOk, Ev.data "STATUS_OK\n"]).2.2.2.2
     (run { command := "GET_STATUS", timeoutOpt := none, delimOpt := none }
       [Ev.connectOk]) "ECONNRESET").2 (by decide)).2⟩

/-- C3 counterexample: with the non-whitespace delimiter "|" and the single
inbound chunk "ABC|", the command resolves to "ABC|": the triggering
delimiter occurrence is still present in the response, refuting the claim
that the delimiter is stripped for every configured delimiter value. Only
`String.prototype.trim` is applied (adapter.js line 196). -/
theorem c3_delimiterNotStripped :
    (run { command := "CMD", timeoutOpt := none, delimOpt := some "|" }
        [Ev.connectOk, Ev.data "ABC|"]).settled = some (Outcome.success "ABC|") ∧
    strHas "|" "ABC|" = true ∧ ("ABC|" : String) ≠ "ABC" := by
  decide

/-- C3 (amended): every successful response is the whitespace-trim of the
accumulated inbound buffer at the moment the configured delimiter was
found in it; the delimiter occurrence itself is removed only insofar as it
consists of leading/trailing whitespace. -/
theorem c3_successIsTrimmedBuffer (cfg : Config) (evs : List Ev) (s : String)
    (hs : (run cfg evs).settled = some (Outcome.success s)) :
    ∃ d, s = jsTrim d ∧ strHas (effDelim cfg) d = true :=
  ((runExecInv cfg evs).success s hs).2.2

/-- C3 witness: the amended theorem applied at the counterexample input. -/
theorem c3_successIsTrimmedBuffer_witness :
    (run { command := "CMD", timeoutOpt := none, delimOpt := some "|" }
        [Ev.connectOk, Ev.data "ABC|"]).settled = some (Outcome.success "ABC|") ∧
    ∃ d, ("ABC|" : String) = jsTrim d ∧
      strHas (effDelim { command := "CMD", timeoutOpt := none, delimOpt := some "|" }) d
        = true :=
  ⟨by decide,
   c3_successIsTrimmedBuffer { command := "CMD", timeoutOpt := none, delimOpt := some "|" }
     [Ev.connectOk, Ev.data "ABC|"] "ABC|" (by decide)⟩

/-- C4: exactly one outcome per invocation. Once the outer timer is
disarmed the promise is settled (and the timer is disarmed on every
settlement path, so a completed invocation always carries an outcome); a
settled outcome is never changed by any later delimiter match, timeout
expiry, socket error or peer reset; and when the connect phase does not
fail, the outcome is drawn from success, Timeout, or TransportError (never
the connect-failure rejection). -/
theorem c4_exactlyOneOutcome (cfg : Config) (evs : List Ev) :
    ((run cfg evs).timeoutArmed = false → (run cfg evs).settled.isSome = true) ∧
    (∀ (o : Outcome) (evs' : List Ev), (run cfg evs).settled = some o →
      (run cfg (evs ++ evs')).settled = some o) ∧
    ((∀ e ∈ evs, ∀ m, e ≠ Ev.connectErr m) →
      ∀ m, (run cfg evs).settled ≠ some (Outcome.connectError m)) := by
  refine ⟨(runExecInv cfg evs).armedSettled, fun o evs' h => ?_, fun hno => ?_⟩
  · rw [run_append]
    exact runFromSettledMono cfg evs' (run cfg evs) o h
  · exact runFromNoConnErr cfg evs initSt hno (fun m hm => Option.noConfusion hm)

/-- C4 witness: a peer reset mid-command settles the invocation with
TransportError once; a timeout trigger delivered afterwards does not change
the recorded outcome. -/
theorem c4_exactlyOneOutcome_witness :
    (run { command := "GET", timeoutOpt := none, delimOpt := none }
        [Ev.connectOk, Ev.socketError "ECONNRESET"]).settled.isSome = true ∧
    (run { command := "GET", timeoutOpt := none, delimOpt := none }
        ([Ev.connectOk, Ev.socketError "ECONNRESET"] ++ [Ev.timerFire])).settled
      = some (Outcome.transportError "ECONNRESET") ∧
    (∀ m, (run { command := "GET", timeoutOpt := none, delimOpt := none }
        [Ev.connectOk, Ev.socketError "ECONNRESET"]).settled
      ≠ some (Outcome.connectError m)) :=
  ⟨(c4_exactlyOneOutcome { command := "GET", timeoutOpt := none, delimOpt := none }
      [Ev.connectOk, Ev.socketError "ECONNRESET"]).1 (by decide),
   (c4_exactlyOneOutcome { command := "GET", timeoutOpt := none, delimOpt := none }
      [Ev.connectOk, Ev.socketError "ECONNRESET"]).2.1
     (Outcome.transportError "ECONNRESET") [Ev.timerFire] (by decide),
   (c4_exactlyOneOutcome { command := "GET", timeoutOpt := none, delimOpt := none }
      [Ev.connectOk, Ev.socketError "ECONNRESET"]).2.2
     (by intro e he m
         rcases List.mem_cons.mp he with h1 | h1
         · rw [h1]; exact fun hc => Ev.noConfusion hc
         · rcases List.mem_cons.mp h1 with h2 | h2
           · rw [h2]; exact fun hc => Ev.noConfusion hc
           · exact absurd h2 (List.not_mem_nil e))⟩

/-- C7: the round trip. The invocation writes exactly the payload followed
by the delimiter to the wire, and resolves to exactly "HELLO_RESPONSE" when
the peer echoes "HELLO_RESPONSE\r\n". -/
theorem c7_roundTrip :
    (run { command := "HELLO_WORLD", timeoutOpt := none, delimOpt := some "\r\n" }
        [Ev.connectOk, Ev.data "HELLO_RESPONSE\r\n"]).written
      = some "HELLO_WORLD\r\n" ∧
    (run { command := "HELLO_WORLD", timeoutOpt := none, delimOpt := some "\r\n" }
        [Ev.connectOk, Ev.data "HELLO_RESPONSE\r\n"]).settled
      = some (Outcome.success "HELLO_RESPONSE") := by
  decide

/-- C5: with an OPEN entry for the key (present in the map and not
destroyed), `getConnection` returns that very connection and leaves the
pool untouched, so two sequential acquisitions return the identical
instance; a fresh connection is established and stored only when no entry
is present (and symmetrically when the stored one is destroyed). -/
theorem c5_openEntryIsReused (p : Pool) (host : String) (port : Nat) (id : Nat)
    (f1 f2 : ConnectRes) (hl : mapGet (keyOf host port) p.conns = some id)
    (hd : id ∉ p.dead) :
    getConnection p host port f1 = (Except.ok id, p) ∧
    getConnection (getConnection p host port f1).2 host port f2 = (Except.ok id, p) ∧
    (∀ (q : Pool) (nid : Nat), mapGet (keyOf host port) q.conns = none →
      getConnection q host port (ConnectRes.ok nid)
        = (Except.ok nid, { q with conns := mapSet (keyOf host port) nid q.conns })) := by
  have h1 := getConnection_hit p host port id f1 hl hd
  refine ⟨h1, ?_, fun q nid hq => getConnection_miss q host port nid hq⟩
  rw [h1]
  exact getConnection_hit p host port id f2 hl hd

/-- C5 witness: a concrete pool holding socket 7 for localhost:8080 returns
socket 7 from two sequential acquisitions, and an empty pool stores the
fresh socket. -/
theorem c5_openEntryIsReused_witness :
    getConnection ⟨[("localhost:8080", 7)], []⟩ "localhost" 8080 (ConnectRes.ok 99)
      = (Except.ok 7, ⟨[("localhost:8080", 7)], []⟩) ∧
    getConnection
        (getConnection ⟨[("localhost:8080", 7)], []⟩ "localhost" 8080
          (ConnectRes.ok 99)).2 "localhost" 8080 (ConnectRes.ok 98)
      = (Except.ok 7, ⟨[("localhost:8080", 7)], []⟩) ∧
    getConnection ⟨[], []⟩ "localhost" 8080 (ConnectRes.ok 3)
      = (Except.ok 3, ⟨[("localhost:8080", 3)], []⟩) :=
  have h := c5_openEntryIsReused ⟨[("localhost:8080", 7)], []⟩ "localhost" 8080 7
    (ConnectRes.ok 99) (ConnectRes.ok 98) (by decide) (by decide)
  ⟨h.1, h.2.1, h.2.2 ⟨[], []⟩ 3 (by decide)⟩

/-- C6: a pending command on a live connection that reaches its timeout
fails with Timeout at the configured effective timeout, the socket is
destroyed by the timeout handler, and once the resulting close event
reaches the pool's close observer the key is evicted from the registry. -/
theorem c6_timeoutDestroysAndEvicts (cfg : Config) (evs : List Ev)
    (hpend : (run cfg evs).settled = none)
    (hact : (run cfg evs).phase = Phase.active) :
    (run cfg (evs ++ [Ev.timerFire, Ev.closeDelivered])).settled
      = some (Outcome.timeout (effTimeout cfg)) ∧
    (run cfg (evs ++ [Ev.timerFire, Ev.closeDelivered])).destroyed = true ∧
    (run cfg (evs ++ [Ev.timerFire, Ev.closeDelivered])).poolHasKey = false := by
  have h := runExecInv cfg evs
  set st := run cfg evs with hst
  have harm : st.timeoutArmed = true := by
    by_contra hc
    have hfalse : st.timeoutArmed = false := by
      revert hc; cases st.timeoutArmed <;> simp
    have hsome := h.armedSettled hfalse
    rw [hpend] at hsome
    simp at hsome
  have hdes : st.destroyed = false := by
    by_contra hc
    have htrue : st.destroyed = true := by
      revert hc; cases st.destroyed <;> simp
    have hsome := h.destroyedSettled htrue
    rw [hpend] at hsome
    simp at hsome
  have hstep : step cfg st Ev.timerFire
      = { st with timeoutArmed := false, destroyed := true, closePending := true,
                  settled := some (Outcome.timeout (effTimeout cfg)) } := by
    simp only [step]
    rw [if_pos harm, if_pos ⟨hact, hdes⟩, hpend]
    rfl
  rw [run_append]
  have hr : runFrom cfg st [Ev.timerFire, Ev.closeDelivered]
      = step cfg (step cfg st Ev.timerFire) Ev.closeDelivered := rfl
  rw [hr, hstep]
  exact ⟨rfl, rfl, rfl⟩

/-- C6 witness: the theorem applied right after connection establishment
with the default options (effective timeout 5000 ms). -/
theorem c6_timeoutDestroysAndEvicts_witness :
    (run { command := "GET", timeoutOpt := none, delimOpt := none }
        ([Ev.connectOk] ++ [Ev.timerFire, Ev.closeDelivered])).settled
      = some (Outcome.timeout 5000) ∧
    (run { command := "GET", timeoutOpt := none, delimOpt := none }
        ([Ev.connectOk] ++ [Ev.timerFire, Ev.closeDelivered])).destroyed = true ∧
    (run { command := "GET", timeoutOpt := none, delimOpt := none }
        ([Ev.connectOk] ++ [Ev.timerFire, Ev.closeDelivered])).poolHasKey = false :=
  c6_timeoutDestroysAndEvicts { command := "GET", timeoutOpt := none, delimOpt := none }
    [Ev.connectOk] (by decide) (by decide)

/-- C8 counterexample: a pool holding socket 3 under a key is unchanged by
the error notification handler (adapter.js line 28 only rejects the
long-settled connect promise): the entry is still present in the registry
in the very tick in which the error notification was observed, refuting
removal within the same tick for the error case. -/
theorem c8_errorDoesNotEvict :
    poolOnError ⟨[("localhost:9000", 3)], []⟩ "localhost:9000"
      = ⟨[("localhost:9000", 3)], []⟩ ∧
    mapGet "localhost:9000"
        (poolOnError ⟨[("localhost:9000", 3)], []⟩ "localhost:9000").conns
      = some 3 := by
  decide

/-- C8 (amended): the registry (a JS Map) holds at most one entry per key,
a property preserved by `getConnection` and by the close observer; the
close notification removes the key synchronously within its handler; the
error notification performs no registry mutation at all — eviction happens
only when the subsequent close event fires. -/
theorem c8_evictOnCloseOnly (p : Pool) (key : String)
    (h : keysNodupB p.conns = true) :
    (∀ k, keyCount k p.conns ≤ 1) ∧
    mapGet key (poolOnClose p key).conns = none ∧
    keysNodupB (poolOnClose p key).conns = true ∧
    poolOnError p key = p ∧
    (∀ (host : String) (port : Nat) (f : ConnectRes),
      keysNodupB (getConnection p host port f).2.conns = true) :=
  ⟨fun k => keyCount_le_one k p.conns h,
   mapGet_mapDel_self key p.conns h,
   keysNodupB_mapDel key p.conns h,
   rfl,
   fun host port f => keysNodupB_getConnection p host port f h⟩

/-- C8 witness: the amended theorem applied to a concrete one-entry pool. -/
theorem c8_evictOnCloseOnly_witness :
    keyCount "localhost:9000" [("localhost:9000", 3)] ≤ 1 ∧
    mapGet "localhost:9000"
        (poolOnClose ⟨[("localhost:9000", 3)], []⟩ "localhost:9000").conns = none ∧
    poolOnError ⟨[("localhost:9000", 3)], []⟩ "localhost:9000"
      = ⟨[("localhost:9000", 3)], []⟩ :=
  have h := c8_evictOnCloseOnly ⟨[("localhost:9000", 3)], []⟩ "localhost:9000" (by decide)
  ⟨h.1 "localhost:9000", h.2.1, h.2.2.2.1⟩

/-- C9 counterexample: two interleaved acquisitions of the unseen key both
observe a registry miss before either connect callback runs (so neither
awaits the other's attempt), and after both callbacks store their sockets
the later one (socket 2) silently owns the key slot while socket 1 is
connected but no longer registered anywhere — the orphaned handle. This
refutes the claimed in-flight caching (policy (a)). -/
theorem c9_concurrentAcquiresRace :
    (acquireBegin ⟨[], []⟩ "localhost:9000").1 = none ∧
    (acquireBegin (acquireBegin ⟨[], []⟩ "localhost:9000").2 "localhost:9000").1
      = none ∧
    mapGet "localhost:9000"
        (acquireFinish (acquireFinish ⟨[], []⟩ "localhost:9000" 1)
          "localhost:9000" 2).conns = some 2 ∧
    (1 : Nat) ∉ ((acquireFinish (acquireFinish ⟨[], []⟩ "localhost:9000" 1)
          "localhost:9000" 2).conns.map Prod.snd) := by
  decide

/-- C9 (amended): the registry does not cache in-flight attempts. For any
pool with no entry for the key, both of two interleaved registry checks
miss (each caller proceeds to start its own connect), and after both
connect callbacks run the later socket owns the key slot while the earlier
one is absent from the registered values — the latent leak documented in
spec section 4.1. -/
theorem c9_noInflightCaching (p : Pool) (key : String) (n1 n2 : Nat)
    (hl : mapGet key p.conns = none) (hv : n1 ∉ p.conns.map Prod.snd)
    (hne : n1 ≠ n2) :
    (acquireBegin p key).1 = none ∧
    (acquireBegin (acquireBegin p key).2 key).1 = none ∧
    mapGet key (acquireFinish (acquireFinish p key n1) key n2).conns = some n2 ∧
    n1 ∉ (acquireFinish (acquireFinish p key n1) key n2).conns.map Prod.snd := by
  have hb : acquireBegin p key = (none, p) := acquireBegin_miss p key hl
  refine ⟨by rw [hb], ?_, ?_, ?_⟩
  · rw [hb]
    show (acquireBegin p key).1 = none
    rw [hb]
  · simp only [acquireFinish]
    exact mapGet_mapSet_self key n2 _
  · simp only [acquireFinish, mapSet_mapSet]
    exact values_mapSet key n1 n2 p.conns hv hne

/-- C9 witness: the amended theorem applied to the empty pool with sockets
1 and 2. -/
theorem c9_noInflightCaching_witness :
    (acquireBegin ⟨[], []⟩ "h:1").1 = none ∧
    (acquireBegin (acquireBegin ⟨[], []⟩ "h:1").2 "h:1").1 = none ∧
    mapGet "h:1" (acquireFinish (acquireFinish ⟨[], []⟩ "h:1" 1) "h:1" 2).conns
      = some 2 ∧
    (1 : Nat) ∉ (acquireFinish (acquireFinish ⟨[], []⟩ "h:1" 1) "h:1" 2).conns.map
        Prod.snd :=
  c9_noInflightCaching ⟨[], []⟩ "h:1" 1 2 (by decide) (by decide) (by decide)

/-- C10: the timeout timer is armed in the initial state, before the
connection is acquired; as long as the connect attempt has not completed
(no connect resolution or rejection among the delivered events), a timer
expiry settles the invocation with Timeout at the effective timeout, and
nothing has ever been written to any connection. -/
theorem c10_timerArmsBeforeConnect (cfg : Config) (evs : List Ev)
    (hev : ∀ e ∈ evs, e ≠ Ev.connectOk ∧ ∀ m, e ≠ Ev.connectErr m) :
    initSt.timeoutArmed = true ∧ initSt.phase = Phase.connecting ∧
    (run cfg (evs ++ [Ev.timerFire])).settled
      = some (Outcome.timeout (effTimeout cfg)) ∧
    (run cfg (evs ++ [Ev.timerFire])).written = none := by
  have h := runFromConnInv cfg evs initSt hev (initConnInv cfg)
  have h2 := connTimerFire cfg (runFrom cfg initSt evs) h
  rw [run_append]
  exact ⟨rfl, rfl, h2.1, h2.2⟩

/-- C10 witness: even with a stray pre-connect event delivered, the timer
expiry during the pending connect yields Timeout with nothing written. -/
theorem c10_timerArmsBeforeConnect_witness :
    (run { command := "GET", timeoutOpt := some 250, delimOpt := none }
        ([Ev.closeDelivered] ++ [Ev.timerFire])).settled
      = some (Outcome.timeout 250) ∧
    (run { command := "GET", timeoutOpt := some 250, delimOpt := none }
        ([Ev.closeDelivered] ++ [Ev.timerFire])).written = none :=
  have h := c10_timerArmsBeforeConnect
    { command := "GET", timeoutOpt := some 250, delimOpt := none }
    [Ev.closeDelivered]
    (by intro e he
        rcases List.mem_cons.mp he with h1 | h1
        · rw [h1]
          exact ⟨fun hc => Ev.noConfusion hc, fun m hc => Ev.noConfusion hc⟩
        · exact absurd h1 (List.not_mem_nil e))
  ⟨h.2.2.1, h.2.2.2⟩
